import Mathlib

/-!
Verification of the log-ingestion server's core logic: the dynamic
filter-to-query compiler (`database/database.go`, `GetFilteredLogs`), the
API-key authentication layer (`auth/auth.go`: `InitializeAPIKeys`,
`AuthMiddleware`, `extractAPIKey`, `GetAPIKey`), and the batch-ingestion
handler (`handlers/logs.go`, `IngestBatch` / `InsertLogsBatch`).

Shallow embedding conventions:
* `time.Time` is modelled as a `Nat` (an abstract instant; `0` is Go's zero
  time, `Before` is `<`).
* The relational store is modelled as a list of records; SQL `UNIQUE`
  constraints from the migration DDL are enforced by explicit membership
  checks; `QueryRow` over a `WHERE` clause is `List.find?` of the predicate.
* SHA-256 (`hashAPIKey`) is an external crypto primitive, so functions that
  use it take the hash function as an explicit parameter.
* Query text produced with `fmt.Sprintf` is reproduced with single spaces
  where the Go raw-string literals contain newline/tab runs (whitespace
  normalisation only; every token and its order is preserved).
-/

namespace LogServer

/-- A value bound as a query argument (`args ...interface{}` in
`GetFilteredLogs`): a string filter value, a `time.Time` bound, or an
`int` limit/offset. -/
inductive SqlVal where
  | s (v : String)
  | t (v : Nat)
  | i (v : Int)
deriving DecidableEq, Repr

/-- `database.LogFilter` (database/database.go): filtering options for logs.
Field names follow the Go struct. -/
structure LogFilter where
  EventType : String
  EventName : String
  UserID : String
  SessionID : String
  AppVersion : String
  Priority : String
  ProviderName : String
  StartTime : Option Nat
  EndTime : Option Nat
  Limit : Int
  Offset : Int
  SortBy : String
  SortOrder : String
deriving DecidableEq, Repr

/-- The dynamic `WHERE`-clause builder of `GetFilteredLogs`
(database/database.go lines 316-373): each present field appends one
condition string `col = $n` (with the running placeholder index `n`) and
one bound argument.  Returns (conditions, args, next placeholder index);
`argIndex` starts at 1. -/
def buildConditions (f : LogFilter) : List String × List SqlVal × Nat :=
  let acc : List String × List SqlVal × Nat := ([], [], 1)
  let acc := if f.EventType ≠ "" then
      (acc.1 ++ ["event_type = $" ++ toString acc.2.2],
       acc.2.1 ++ [SqlVal.s f.EventType], acc.2.2 + 1)
    else acc
  let acc := if f.EventName ≠ "" then
      (acc.1 ++ ["event_name = $" ++ toString acc.2.2],
       acc.2.1 ++ [SqlVal.s f.EventName], acc.2.2 + 1)
    else acc
  let acc := if f.UserID ≠ "" then
      (acc.1 ++ ["user_id = $" ++ toString acc.2.2],
       acc.2.1 ++ [SqlVal.s f.UserID], acc.2.2 + 1)
    else acc
  let acc := if f.SessionID ≠ "" then
      (acc.1 ++ ["session_id = $" ++ toString acc.2.2],
       acc.2.1 ++ [SqlVal.s f.SessionID], acc.2.2 + 1)
    else acc
  let acc := if f.AppVersion ≠ "" then
      (acc.1 ++ ["app_version = $" ++ toString acc.2.2],
       acc.2.1 ++ [SqlVal.s f.AppVersion], acc.2.2 + 1)
    else acc
  let acc := if f.Priority ≠ "" then
      (acc.1 ++ ["priority = $" ++ toString acc.2.2],
       acc.2.1 ++ [SqlVal.s f.Priority], acc.2.2 + 1)
    else acc
  let acc := if f.ProviderName ≠ "" then
      (acc.1 ++ ["properties->\x27tags\x27->>\x27provider\x27 = $" ++ toString acc.2.2],
       acc.2.1 ++ [SqlVal.s f.ProviderName], acc.2.2 + 1)
    else acc
  let acc := match f.StartTime with
    | some ts =>
      (acc.1 ++ ["created_at >= $" ++ toString acc.2.2],
       acc.2.1 ++ [SqlVal.t ts], acc.2.2 + 1)
    | none => acc
  let acc := match f.EndTime with
    | some ts =>
      (acc.1 ++ ["created_at <= $" ++ toString acc.2.2],
       acc.2.1 ++ [SqlVal.t ts], acc.2.2 + 1)
    | none => acc
  acc

/-- `WHERE` clause assembly (database/database.go lines 376-382): empty for
no conditions, otherwise `WHERE c0 AND c1 AND ...`. -/
def whereClauseOf (cs : List String) : String :=
  match cs with
  | [] => ""
  | c :: t => t.foldl (fun w x => w ++ " AND " ++ x) ("WHERE " ++ c)

/-- The sort-column allow-list `validSortFields`
(database/database.go lines 396-400). -/
def validSortFields : List String :=
  ["id", "event_id", "timestamp", "event_type", "event_name",
   "user_id", "session_id", "app_version", "priority", "created_at"]

/-- Sort-column selection (database/database.go lines 392-404): default
`created_at`; a non-empty caller value is used only when it is in the
allow-list. -/
def chosenSortBy (f : LogFilter) : String :=
  if f.SortBy ≠ "" && validSortFields.contains f.SortBy then f.SortBy
  else "created_at"

/-- Sort-order selection (database/database.go lines 406-409): `ASC` exactly
for the strings `"ASC"` and `"asc"`, otherwise `DESC`. -/
def chosenSortOrder (f : LogFilter) : String :=
  if f.SortOrder = "ASC" || f.SortOrder = "asc" then "ASC" else "DESC"

/-- `ORDER BY ... LIMIT ... [OFFSET ...]` clause and its extra bound
arguments (database/database.go lines 411-419); `i` is the next placeholder
index after the conditions. -/
def orderLimitClause (f : LogFilter) (i : Nat) : String × List SqlVal :=
  let lc := "ORDER BY " ++ chosenSortBy f ++ " " ++ chosenSortOrder f ++
    " LIMIT $" ++ toString i
  let ar := [SqlVal.i f.Limit]
  if 0 < f.Offset then
    (lc ++ " OFFSET $" ++ toString (i + 1), ar ++ [SqlVal.i f.Offset])
  else (lc, ar)

/-- Column list of the page query (database/database.go lines 422-428),
whitespace-normalised. -/
def selectColumns : String :=
  "SELECT id, event_id, timestamp, event_type, event_name, properties, " ++
  "user_id, session_id, app_version, device_info, sequence_number, " ++
  "priority, created_at, processed_at FROM analytics_logs "

/-- The two queries `GetFilteredLogs` issues (database/database.go lines
315-433): the count query text with its args, and the page query text with
its args.  The builder is total: no filter value is ever rejected here. -/
def getFilteredLogsQueries (f : LogFilter) :
    (String × List SqlVal) × (String × List SqlVal) :=
  let bc := buildConditions f
  let w := whereClauseOf bc.1
  let countQ := ("SELECT COUNT(*) FROM analytics_logs " ++ w, bc.2.1)
  let ol := orderLimitClause f bc.2.2
  let pageQ := (selectColumns ++ w ++ " " ++ ol.1, bc.2.1 ++ ol.2)
  (countQ, pageQ)

/-- A filter with no criteria set: all optional fields empty/absent, the
handler defaults `Limit = 50`, `Offset = 0` (handlers/logs.go lines 413-428). -/
def emptyFilter : LogFilter :=
  { EventType := "", EventName := "", UserID := "", SessionID := "",
    AppVersion := "", Priority := "", ProviderName := "",
    StartTime := none, EndTime := none, Limit := 50, Offset := 0,
    SortBy := "", SortOrder := "" }

/-- `models.APIKey` (models/log.go), restricted to the columns the auth
logic reads (`id, created_at, last_used_at, usage_count` are scanned but
never branched on and are omitted). -/
structure APIKeyRec where
  keyHash : String
  name : String
  isActive : Bool
  expiresAt : Option Nat
deriving DecidableEq, Repr

/-- The `api_keys` table; the migration declares `key_hash` UNIQUE. -/
abbrev KeyStore := List APIKeyRec

/-- `DB.GetAPIKey` (database/database.go lines 159-185):
`SELECT ... FROM api_keys WHERE key_hash = $1 AND is_active = true`; no
matching row is reported as `nil, nil` (here `none`), not as an error. -/
def getAPIKey (store : KeyStore) (h : String) : Option APIKeyRec :=
  store.find? fun r => r.keyHash = h && r.isActive

/-- `DB.InsertAPIKey` (database/database.go lines 203-222): a plain INSERT;
the store's UNIQUE constraint on `key_hash` rejects a row whose hash is
already present, surfacing as a query error. -/
def insertAPIKey (store : KeyStore) (r : APIKeyRec) : Except Unit KeyStore :=
  if store.any fun r0 => r0.keyHash = r.keyHash then Except.error ()
  else Except.ok (store ++ [r])

/-- The in-memory auth cache state of `auth.AuthService` (auth/auth.go):
`apiKeys map[string]bool` plus `lastSync time.Time`.  The Go map is
modelled as an association list; a read of a missing hash yields `false`
exactly as a Go map read does. -/
structure AuthState where
  apiKeys : List (String × Bool)
  lastSync : Nat
deriving DecidableEq, Repr

/-- Go map read with zero-value default: `as.apiKeys[keyHash]`. -/
def lookupKey (m : List (String × Bool)) (h : String) : Bool :=
  match m.find? fun p => p.1 = h with
  | some p => p.2
  | none => false

/-- Go map write: `as.apiKeys[keyHash] = b`. -/
def setKey (m : List (String × Bool)) (h : String) (b : Bool) :
    List (String × Bool) :=
  match m with
  | [] => [(h, b)]
  | p :: t => if p.1 = h then (h, b) :: t else p :: setKey t h b

/-- The cache staleness window: `5*time.Minute` (auth/auth.go line 360),
in seconds. -/
def staleWindow : Nat := 5 * 60

/-- `AuthService.isValidCachedKey` (auth/auth.go lines 357-365): when the
cache is stale, `refreshCache` runs — which only resets `lastSync` and
leaves the map untouched (auth/auth.go lines 367-372) — then the map is
read.  Returns the read result and the possibly clock-reset state. -/
def isValidCachedKey (st : AuthState) (now : Nat) (h : String) :
    Bool × AuthState :=
  let st1 := if staleWindow < now - st.lastSync then
      { st with lastSync := now }
    else st
  (lookupKey st1.apiKeys h, st1)

/-- An inbound request's two credential headers. -/
structure Request where
  authorization : String
  xAPIKey : String
deriving DecidableEq, Repr

/-- `strings.HasPrefix` over the character lists of the two strings. -/
def hasPrefixChars : List Char → List Char → Bool
  | [], _ => true
  | _ :: _, [] => false
  | p :: ps, c :: cs => if p = c then hasPrefixChars ps cs else false

/-- `strings.HasPrefix s pre`. -/
def hasPrefixGo (s pre : String) : Bool := hasPrefixChars pre.data s.data

/-- `AuthService.extractAPIKey` (auth/auth.go lines 336-349): a non-empty
`Authorization` header wins outright — its value with a `Bearer ` marker
stripped when present (`strings.TrimPrefix` drops the marker's 7
characters), verbatim otherwise; `X-API-Key` is consulted only when
`Authorization` is empty. -/
def extractAPIKey (r : Request) : String :=
  if r.authorization ≠ "" then
    if hasPrefixGo r.authorization "Bearer " then
      (r.authorization.drop 7)
    else r.authorization
  else r.xAPIKey

/-- The decision `AuthMiddleware` reaches for one request. -/
inductive AuthDecision where
  | missingKey
  | acceptedFromCache
  | acceptedFromStore
  | rejectedUnknownOrInactive
  | rejectedExpired
deriving DecidableEq, Repr

/-- `AuthService.AuthMiddleware` (auth/auth.go lines 263-334) as a state
transition on the cache.  `hash` stands for the external SHA-256 primitive
`hashAPIKey`.  The asynchronous `UpdateAPIKeyUsage` goroutines touch only
store usage counters, never the cache, and are omitted.  Mirrors the source
branch for branch: missing key; cache hit; store miss or inactive row
(`dbKey == nil || !dbKey.IsActive`); expired row; confirmed-valid row, the
only branch that writes the cache. -/
def authMiddleware (hash : String → String) (store : KeyStore)
    (st : AuthState) (now : Nat) (req : Request) :
    AuthDecision × AuthState :=
  let raw := extractAPIKey req
  if raw = "" then (AuthDecision.missingKey, st)
  else
    let h := hash raw
    let c := isValidCachedKey st now h
    if c.1 then (AuthDecision.acceptedFromCache, c.2)
    else
      match getAPIKey store h with
      | none => (AuthDecision.rejectedUnknownOrInactive, c.2)
      | some k =>
        if k.isActive = false then
          (AuthDecision.rejectedUnknownOrInactive, c.2)
        else
          match k.expiresAt with
          | some e =>
            if e < now then (AuthDecision.rejectedExpired, c.2)
            else (AuthDecision.acceptedFromStore,
              { c.2 with apiKeys := setKey c.2.apiKeys h true })
          | none => (AuthDecision.acceptedFromStore,
              { c.2 with apiKeys := setKey c.2.apiKeys h true })

/-- One request-processing step: the store contents and clock as seen by
that request, plus the request itself. -/
structure StepInput where
  store : KeyStore
  now : Nat
  req : Request
deriving DecidableEq, Repr

/-- A serialized run of `AuthMiddleware` over a sequence of requests,
threading the cache state; yields the per-request decisions and the final
state. -/
def runAuth (hash : String → String) :
    AuthState → List StepInput → List AuthDecision × AuthState
  | st, [] => ([], st)
  | st, s :: t =>
    let r := authMiddleware hash s.store st s.now s.req
    let rest := runAuth hash r.2 t
    (r.1 :: rest.1, rest.2)

/-- The record `InitializeAPIKeys` creates for a configured key with no
store record (auth/auth.go lines 239-246): active, no expiration, a name
derived from the creation date. -/
def bootstrapRec (h : String) (now : Nat) : APIKeyRec :=
  { keyHash := h, name := "Auto-generated key " ++ toString now,
    isActive := true, expiresAt := none }

/-- `AuthService.InitializeAPIKeys` (auth/auth.go lines 228-261): for each
configured raw key, look its hash up via `GetAPIKey`; when absent, insert a
fresh record (an insert error aborts the whole run); in both cases mark the
hash valid in the cache; finally set `lastSync`. -/
def initializeAPIKeys (hash : String → String) (now : Nat) :
    KeyStore → AuthState → List String → Except Unit (KeyStore × AuthState)
  | store, st, [] => Except.ok (store, { st with lastSync := now })
  | store, st, k :: t =>
    let h := hash k
    match getAPIKey store h with
    | some _ =>
      initializeAPIKeys hash now store
        { st with apiKeys := setKey st.apiKeys h true } t
    | none =>
      match insertAPIKey store (bootstrapRec h now) with
      | Except.error e => Except.error e
      | Except.ok store2 =>
        initializeAPIKeys hash now store2
          { st with apiKeys := setKey st.apiKeys h true } t

/-- `models.AnalyticsLog` (models/log.go).  `time.Time` fields are `Nat`
(`0` is the zero time); the open JSONB documents are flat key-value lists
(their contents are never branched on). -/
structure AnalyticsLog where
  id : Int
  eventID : String
  timestamp : Nat
  eventType : String
  eventName : String
  properties : Option (List (String × String))
  userID : Option String
  sessionID : Option String
  appVersion : Option String
  deviceInfo : Option (List (String × String))
  sequenceNumber : Option Int
  priority : String
  createdAt : Nat
  processedAt : Option Nat
deriving DecidableEq, Repr

/-- `models.ValidationError` (models/log.go): field name and message. -/
structure ValidationError where
  field : String
  message : String
deriving DecidableEq, Repr

/-- The `analytics_logs` table; the migration declares `event_id` UNIQUE. -/
abbrev LogStore := List AnalyticsLog

/-- `IngestHandler.setDefaultValues` (handlers/logs.go lines 276-292):
zero timestamp becomes the current time, empty priority becomes `normal`,
nil documents become empty documents. -/
def setDefaultValues (now : Nat) (l : AnalyticsLog) : AnalyticsLog :=
  let l := if l.timestamp = 0 then { l with timestamp := now } else l
  let l := if l.priority = "" then { l with priority := "normal" } else l
  let l := if l.properties = none then { l with properties := some [] } else l
  let l := if l.deviceInfo = none then { l with deviceInfo := some [] } else l
  l

/-- The closed `event_type` enumeration (models/log.go struct tag and
handlers/logs.go `validateEventType`). -/
def validEventTypes : List String :=
  ["behavioral", "telemetry", "observability", "error", "performance"]

/-- `getValidationMessage` text for the `required` tag. -/
def requiredMsg : String := "This field is required"

/-- `getValidationMessage` text for the `oneof` tag on `event_type`. -/
def eventTypeOneOfMsg : String :=
  "Must be one of: behavioral telemetry observability error performance"

/-- `getValidationMessage` text for the `oneof` tag on `priority`. -/
def priorityOneOfMsg : String := "Must be one of: normal high"

/-- Struct validation of one log (the `validate:` tags in models/log.go as
checked by `h.validator.Struct`, formatted by `formatValidationErrors`):
`event_id`, `timestamp`, `event_name` are required; `event_type` is
required and must be in the enumeration; `priority` must be
`normal`/`high`.  All failing fields are reported, in struct field order,
one error per field (the first failing tag). -/
def validateLog (l : AnalyticsLog) : List ValidationError :=
  (if l.eventID = "" then [{ field := "EventID", message := requiredMsg }]
   else []) ++
  (if l.timestamp = 0 then [{ field := "Timestamp", message := requiredMsg }]
   else []) ++
  (if l.eventType = "" then [{ field := "EventType", message := requiredMsg }]
   else if validEventTypes.contains l.eventType then []
   else [{ field := "EventType", message := eventTypeOneOfMsg }]) ++
  (if l.eventName = "" then [{ field := "EventName", message := requiredMsg }]
   else []) ++
  (if l.priority = "normal" ∨ l.priority = "high" then []
   else [{ field := "Priority", message := priorityOneOfMsg }])

/-- `ve.Field = fmt.Sprintf("logs[%d].%s", i, ve.Field)`
(handlers/logs.go line 226). -/
def tagIndexed (i : Nat) (ve : ValidationError) : ValidationError :=
  { ve with field := "logs[" ++ toString i ++ "]." ++ ve.field }

/-- The per-log loop of `IngestBatch` (handlers/logs.go lines 217-233):
apply defaults then validate each log, collecting every error (tagged with
the log's index) and every valid defaulted log, in order; `j` is the index
of the first log of the remaining list. -/
def validateBatch (now : Nat) :
    Nat → List AnalyticsLog → List ValidationError × List AnalyticsLog
  | _, [] => ([], [])
  | j, l :: t =>
    let l2 := setDefaultValues now l
    let errs := validateLog l2
    let rest := validateBatch now (j + 1) t
    if 0 < errs.length then (errs.map (tagIndexed j) ++ rest.1, rest.2)
    else (rest.1, l2 :: rest.2)

/-- The insert loop inside the transaction of `InsertLogsBatch`
(database/database.go lines 132-149): each row insert is checked against
the `event_id` UNIQUE constraint over everything visible in the
transaction; the first violation aborts (and the deferred `tx.Rollback`
discards the partial work — the caller's store is unchanged on error). -/
def insertRowsTx (store : LogStore) : List AnalyticsLog → Except Unit LogStore
  | [] => Except.ok store
  | l :: t =>
    if store.any fun r => r.eventID = l.eventID then Except.error ()
    else insertRowsTx (store ++ [l]) t

/-- `DB.InsertLogsBatch` (database/database.go lines 111-156): empty input
returns immediately; otherwise all rows are inserted in one transaction,
all-or-nothing. -/
def insertLogsBatch (store : LogStore) (logs : List AnalyticsLog) :
    Except Unit LogStore :=
  if logs.length = 0 then Except.ok store
  else insertRowsTx store logs

/-- What one `IngestBatch` request answers. -/
inductive BatchOutcome where
  | rejected (code : String) (details : List ValidationError)
  | created (count : Nat)
deriving DecidableEq, Repr

/-- The batch cap (handlers/logs.go line 208, hard-coded 1000). -/
def maxBatchSize : Nat := 1000

/-- `IngestHandler.IngestBatch` (handlers/logs.go lines 180-273) after JSON
decoding: reject an empty list (`empty_batch`), then an oversized list
(`batch_too_large`), both before any validation or store access; validate
every log, rejecting with the full error list (`validation_error`) when any
log fails; insert the batch transactionally, surfacing a store failure as
`database_error` with no rows kept. -/
def ingestBatch (store : LogStore) (logs : List AnalyticsLog) (now : Nat) :
    BatchOutcome × LogStore :=
  if logs.length = 0 then (BatchOutcome.rejected "empty_batch" [], store)
  else if logs.length > maxBatchSize then
    (BatchOutcome.rejected "batch_too_large" [], store)
  else
    let v := validateBatch now 0 logs
    if 0 < v.1.length then
      (BatchOutcome.rejected "validation_error" v.1, store)
    else
      match insertLogsBatch store v.2 with
      | Except.ok store2 => (BatchOutcome.created v.2.length, store2)
      | Except.error _ => (BatchOutcome.rejected "database_error" [], store)

/-- A concrete well-formed log for witnesses. -/
def sampleLog : AnalyticsLog :=
  { id := 0, eventID := "e1", timestamp := 5, eventType := "behavioral",
    eventName := "x", properties := none, userID := none, sessionID := none,
    appVersion := none, deviceInfo := none, sequenceNumber := none,
    priority := "normal", createdAt := 0, processedAt := none }

/-- A concrete log missing its required `event_id`. -/
def badLog : AnalyticsLog := { sampleLog with eventID := "" }

/-- C1: the sort column used in the page query is always drawn from the fixed
allow-list: an allow-listed `sort_by` value is used as given, and any other
value (the empty string or an injection attempt alike) silently yields
`created_at` — the builder has no rejection path, and the rendered queries
are then identical to the ones rendered with no `sort_by` at all, so the raw
string never reaches the query text. -/
theorem filter_sort_column_allowlist (f : LogFilter) :
    (validSortFields.contains f.SortBy = true → chosenSortBy f = f.SortBy) ∧
    (validSortFields.contains f.SortBy = false →
      chosenSortBy f = "created_at" ∧
      getFilteredLogsQueries f = getFilteredLogsQueries { f with SortBy := "" }) := by
  constructor
  · intro h
    have hne : f.SortBy ≠ "" := by
      intro he
      rw [he] at h
      exact absurd h (by decide)
    have hb : (f.SortBy ≠ "" && validSortFields.contains f.SortBy) = true := by
      rw [h, Bool.and_true, decide_eq_true_eq]
      exact hne
    unfold chosenSortBy
    rw [if_pos hb]
  · intro h
    have hb : ¬ ((f.SortBy ≠ "" && validSortFields.contains f.SortBy) = true) := by
      rw [h, Bool.and_false]
      exact Bool.false_ne_true
    have hcb : chosenSortBy f = "created_at" := by
      unfold chosenSortBy
      rw [if_neg hb]
    refine ⟨hcb, ?_⟩
    have hcb2 : chosenSortBy { f with SortBy := "" } = "created_at" := by
      unfold chosenSortBy
      rw [if_neg]
      simp
    simp only [getFilteredLogsQueries, buildConditions, orderLimitClause,
      chosenSortOrder, hcb, hcb2]

/-- Witness for C1 at the spec's concrete injection string. -/
theorem filter_sort_column_allowlist_witness :
    validSortFields.contains "robert\x27); drop table logs;--" = false ∧
    chosenSortBy { emptyFilter with SortBy := "robert\x27); drop table logs;--" } =
      "created_at" ∧
    getFilteredLogsQueries
        { emptyFilter with SortBy := "robert\x27); drop table logs;--" } =
      getFilteredLogsQueries emptyFilter := by
  have h := filter_sort_column_allowlist
    { emptyFilter with SortBy := "robert\x27); drop table logs;--" }
  exact ⟨by decide, (h.2 (by decide)).1, (h.2 (by decide)).2⟩

/-- C2: the count query and the page query are built from the identical
conjunctive predicate set: both query texts embed the same `WHERE` clause
over the same condition list, the count query binds exactly the condition
arguments, and the page query binds those same arguments in the same order
followed only by the limit (and, when positive, the offset). -/
theorem filter_count_page_same_predicates (f : LogFilter) :
    (getFilteredLogsQueries f).1.1 =
      "SELECT COUNT(*) FROM analytics_logs " ++ whereClauseOf (buildConditions f).1 ∧
    (getFilteredLogsQueries f).2.1 =
      selectColumns ++ whereClauseOf (buildConditions f).1 ++ " " ++
        (orderLimitClause f (buildConditions f).2.2).1 ∧
    (getFilteredLogsQueries f).1.2 = (buildConditions f).2.1 ∧
    ((¬ 0 < f.Offset ∧ (getFilteredLogsQueries f).2.2 =
        (getFilteredLogsQueries f).1.2 ++ [SqlVal.i f.Limit]) ∨
     (0 < f.Offset ∧ (getFilteredLogsQueries f).2.2 =
        (getFilteredLogsQueries f).1.2 ++ [SqlVal.i f.Limit, SqlVal.i f.Offset])) := by
  refine ⟨rfl, ?_, rfl, ?_⟩
  · simp only [getFilteredLogsQueries, String.append_assoc]
  · by_cases ho : 0 < f.Offset
    · right
      refine ⟨ho, ?_⟩
      simp [getFilteredLogsQueries, orderLimitClause, ho]
    · left
      refine ⟨ho, ?_⟩
      simp [getFilteredLogsQueries, orderLimitClause, ho]

/-- C5 counterexample: `"Asc"` equals `"asc"` case-insensitively, yet the
code selects `DESC` for it — the comparison in the source is an exact match
against the two spellings `"ASC"` and `"asc"`, not case-insensitive. -/
theorem sort_order_case_counterexample :
    "Asc".data.map Char.toLower = "asc".data ∧
    chosenSortOrder { emptyFilter with SortOrder := "Asc" } = "DESC" := by
  constructor
  · decide
  · rfl

/-- C5 (amended): the order used in the page query is `ASC` exactly when the
caller-supplied `sort_order` is one of the two exact strings `"ASC"` or
`"asc"`, and `DESC` for every other input (other case mixtures and the empty
string included); the result is always one of `ASC`/`DESC`. -/
theorem sort_order_normalization (f : LogFilter) :
    (chosenSortOrder f = "ASC" ↔ (f.SortOrder = "ASC" ∨ f.SortOrder = "asc")) ∧
    (chosenSortOrder f = "ASC" ∨ chosenSortOrder f = "DESC") := by
  by_cases h1 : f.SortOrder = "ASC"
  · have hc : chosenSortOrder f = "ASC" := by
      simp [chosenSortOrder, h1]
    exact ⟨⟨fun _ => Or.inl h1, fun _ => hc⟩, Or.inl hc⟩
  · by_cases h2 : f.SortOrder = "asc"
    · have hc : chosenSortOrder f = "ASC" := by
        simp [chosenSortOrder, h2]
      exact ⟨⟨fun _ => Or.inr h2, fun _ => hc⟩, Or.inl hc⟩
    · have hc : chosenSortOrder f = "DESC" := by
        simp [chosenSortOrder, h1, h2]
      refine ⟨⟨fun hca => ?_, fun hor => ?_⟩, Or.inr hc⟩
      · rw [hc] at hca
        exact absurd hca (by decide)
      · rcases hor with h | h
        · exact absurd h h1
        · exact absurd h h2

/-- Witness for C5 (amended) at a concrete input. -/
theorem sort_order_normalization_witness :
    chosenSortOrder { emptyFilter with SortOrder := "asc" } = "ASC" :=
  ((sort_order_normalization { emptyFilter with SortOrder := "asc" }).1).mpr
    (Or.inr rfl)

/-- For a non-empty `Authorization` header the extracted key depends only
on that header. -/
theorem extractAPIKey_of_auth (r : Request) (h : r.authorization ≠ "") :
    extractAPIKey r =
      (if hasPrefixGo r.authorization "Bearer " then r.authorization.drop 7
       else r.authorization) := by
  unfold extractAPIKey
  exact if_pos h

/-- C10: credential extraction gives the `Authorization` header absolute
precedence — when it is non-empty the extracted key is its value (with the
`Bearer ` marker stripped when present, verbatim otherwise) and the
`X-API-Key` header is ignored entirely; `X-API-Key` is used only when
`Authorization` is empty. -/
theorem extract_api_key_precedence (r : Request) :
    (r.authorization ≠ "" →
      extractAPIKey r =
        (if hasPrefixGo r.authorization "Bearer " then r.authorization.drop 7
         else r.authorization) ∧
      ∀ x, extractAPIKey { r with xAPIKey := x } = extractAPIKey r) ∧
    (r.authorization = "" → extractAPIKey r = r.xAPIKey) := by
  constructor
  · intro h
    refine ⟨extractAPIKey_of_auth r h, fun x => ?_⟩
    exact (extractAPIKey_of_auth { r with xAPIKey := x } h).trans
      (extractAPIKey_of_auth r h).symm
  · intro h
    unfold extractAPIKey
    exact if_neg (by simp [h])

/-- Witness for C10 at concrete headers: with both headers set, the
bearer remainder of `Authorization` is used and `X-API-Key` is ignored. -/
theorem extract_api_key_precedence_witness :
    extractAPIKey { authorization := "Bearer tok1", xAPIKey := "other" } =
      "tok1" ∧
    extractAPIKey { authorization := "Bearer tok1", xAPIKey := "changed" } =
      extractAPIKey { authorization := "Bearer tok1", xAPIKey := "other" } ∧
    extractAPIKey { authorization := "", xAPIKey := "other" } = "other" := by
  have h1 := (extract_api_key_precedence
    { authorization := "Bearer tok1", xAPIKey := "other" }).1 (by decide)
  have h2 := (extract_api_key_precedence
    { authorization := "", xAPIKey := "other" }).2 rfl
  refine ⟨?_, ?_, h2⟩
  · rw [h1.1]
    rw [if_pos (by decide)]
    decide
  · exact h1.2 "changed"

/-- C9: the store-level key lookup filters on `is_active = true`, so it
never returns an inactive record: every returned record is active,
removing all inactive records from the store never changes the result
(an inactive record is indistinguishable from a missing one), and in the
validator the unknown-or-inactive rejection can only ever arise from a
`none` lookup — the inactive branch never decides. -/
theorem get_api_key_never_inactive :
    (∀ (store : KeyStore) (h : String) (k : APIKeyRec),
       getAPIKey store h = some k → k.isActive = true) ∧
    (∀ (store : KeyStore) (h : String),
       getAPIKey (store.filter fun r => r.isActive) h = getAPIKey store h) ∧
    (∀ (hash : String → String) (store : KeyStore) (st : AuthState)
       (now : Nat) (req : Request),
       (authMiddleware hash store st now req).1 =
         AuthDecision.rejectedUnknownOrInactive →
       getAPIKey store (hash (extractAPIKey req)) = none) := by
  have hactive : ∀ (store : KeyStore) (h : String) (k : APIKeyRec),
      getAPIKey store h = some k → k.isActive = true := by
    intro store h k hk
    have := List.find?_some hk
    exact (Bool.and_eq_true _ _).mp this |>.2
  refine ⟨hactive, ?_, ?_⟩
  · intro store h
    induction store with
    | nil => rfl
    | cons r t ih =>
      by_cases ha : r.isActive
      · by_cases hk : r.keyHash = h
        · simp [getAPIKey, List.find?, ha, hk, List.filter]
        · simp [getAPIKey, List.find?, ha, hk, List.filter] at ih ⊢
          exact ih
      · simp only [Bool.not_eq_true] at ha
        simp [getAPIKey, List.find?, ha, List.filter] at ih ⊢
        exact ih
  · intro hash store st now req hd
    simp only [authMiddleware] at hd
    split at hd
    · simp at hd
    · split at hd
      · simp at hd
      · split at hd
        next heq => exact heq
        next k heq =>
          split at hd
          next hin =>
            have hact := hactive _ _ _ heq
            rw [hact] at hin
            exact absurd hin (by simp)
          next hin =>
            split at hd
            next e heq2 =>
              split at hd
              · simp at hd
              · simp at hd
            next heq2 => simp at hd

/-- Witness for C9 at a concrete store holding only an inactive record. -/
theorem get_api_key_never_inactive_witness :
    getAPIKey
      [{ keyHash := "h1", name := "n", isActive := false, expiresAt := none }]
      "h1" = none ∧
    getAPIKey
      (List.filter (fun r => r.isActive)
        [{ keyHash := "h1", name := "n", isActive := false, expiresAt := none }])
      "h1" =
    getAPIKey
      [{ keyHash := "h1", name := "n", isActive := false, expiresAt := none }]
      "h1" := by
  refine ⟨by decide, ?_⟩
  exact get_api_key_never_inactive.2.1
    [{ keyHash := "h1", name := "n", isActive := false, expiresAt := none }] "h1"

/-- Reading back the hash just written. -/
theorem lookup_setKey_self (m : List (String × Bool)) (h0 : String) (b : Bool) :
    lookupKey (setKey m h0 b) h0 = b := by
  induction m with
  | nil => simp [setKey, lookupKey, List.find?]
  | cons p t ih =>
    by_cases hp : p.1 = h0
    · simp [setKey, hp, lookupKey, List.find?]
    · simp only [setKey, if_neg hp]
      simpa [lookupKey, List.find?, hp] using ih

/-- Writing one hash leaves every other hash's cached value unchanged. -/
theorem lookup_setKey_ne (m : List (String × Bool)) (h0 h : String)
    (b : Bool) (hne : h ≠ h0) :
    lookupKey (setKey m h0 b) h = lookupKey m h := by
  have hne2 : ¬ h0 = h := fun he => hne he.symm
  induction m with
  | nil => simp [setKey, lookupKey, List.find?, hne2]
  | cons p t ih =>
    by_cases hp : p.1 = h0
    · simp [setKey, hp, lookupKey, List.find?, hne2]
    · by_cases hph : p.1 = h
      · simp only [setKey, if_neg hp]
        simp [lookupKey, List.find?, hph]
      · simp only [setKey, if_neg hp]
        simpa [lookupKey, List.find?, hph] using ih

/-- One middleware step either leaves the cache map untouched, or the
request was accepted after a fresh store check and the map change is
exactly the insertion of that request's key hash. -/
theorem authMiddleware_apiKeys_cases (hash : String → String)
    (store : KeyStore) (st : AuthState) (now : Nat) (req : Request) :
    (authMiddleware hash store st now req).2.apiKeys = st.apiKeys ∨
    ((authMiddleware hash store st now req).1 =
       AuthDecision.acceptedFromStore ∧
     (authMiddleware hash store st now req).2.apiKeys =
       setKey st.apiKeys (hash (extractAPIKey req)) true) := by
  have hck : ∀ h, (isValidCachedKey st now h).2.apiKeys = st.apiKeys := by
    intro h
    unfold isValidCachedKey
    by_cases hs : staleWindow < now - st.lastSync
    · simp [hs]
    · simp [hs]
  simp only [authMiddleware]
  split
  · left; rfl
  · split
    · left
      exact hck (hash (extractAPIKey req))
    · split
      · left
        exact hck (hash (extractAPIKey req))
      · split
        · left
          exact hck (hash (extractAPIKey req))
        · split
          · split
            · left
              exact hck (hash (extractAPIKey req))
            · right
              exact ⟨rfl, by simp [hck (hash (extractAPIKey req))]⟩
          · right
            exact ⟨rfl, by simp [hck (hash (extractAPIKey req))]⟩

/-- A fresh-store acceptance really did confirm the key in the store:
a record for the hash exists, is active, and is not expired at the
request's time. -/
theorem authMiddleware_accepted_store (hash : String → String)
    (store : KeyStore) (st : AuthState) (now : Nat) (req : Request)
    (hd : (authMiddleware hash store st now req).1 =
      AuthDecision.acceptedFromStore) :
    ∃ k, getAPIKey store (hash (extractAPIKey req)) = some k ∧
      k.isActive = true ∧ ∀ e, k.expiresAt = some e → ¬ e < now := by
  simp only [authMiddleware] at hd
  split at hd
  · simp at hd
  · split at hd
    · simp at hd
    · split at hd
      next heq => simp at hd
      next k heq =>
        split at hd
        next hin => simp at hd
        next hin =>
          refine ⟨k, heq, by simpa using hin, ?_⟩
          split at hd
          next e heq2 =>
            split at hd
            next hlt => simp at hd
            next hlt =>
              intro e0 he0
              rw [heq2] at he0
              cases he0
              exact hlt
          next heq2 =>
            intro e0 he0
            rw [heq2] at he0
            cases he0

/-- C3: the validator adds a hash to the in-memory valid cache only after a
fresh store check confirmed it (present, active, unexpired); every
rejection (missing, unknown-or-inactive, expired) leaves the cache map
unchanged; and over any serialized run of requests, a hash absent from the
cache stays absent unless some request in the run was accepted from the
store for exactly that hash — so a key once rejected as expired is never
later served from the cache without an intervening confirmed store check,
and a cache miss is never answered from the cache. -/
theorem auth_cache_only_confirmed_valid :
    (∀ (hash : String → String) (store : KeyStore) (st : AuthState)
       (now : Nat) (req : Request),
       ((authMiddleware hash store st now req).1 = AuthDecision.missingKey ∨
        (authMiddleware hash store st now req).1 =
          AuthDecision.rejectedUnknownOrInactive ∨
        (authMiddleware hash store st now req).1 =
          AuthDecision.rejectedExpired) →
       (authMiddleware hash store st now req).2.apiKeys = st.apiKeys) ∧
    (∀ (hash : String → String) (store : KeyStore) (st : AuthState)
       (now : Nat) (req : Request) (h : String),
       lookupKey (authMiddleware hash store st now req).2.apiKeys h = true →
       lookupKey st.apiKeys h = true ∨
       ((authMiddleware hash store st now req).1 =
          AuthDecision.acceptedFromStore ∧
        h = hash (extractAPIKey req) ∧
        ∃ k, getAPIKey store h = some k ∧ k.isActive = true ∧
          ∀ e, k.expiresAt = some e → ¬ e < now)) ∧
    (∀ (hash : String → String) (st : AuthState) (h : String)
       (l : List StepInput),
       lookupKey st.apiKeys h = false →
       (∀ p ∈ (runAuth hash st l).1.zip l,
          ¬(p.1 = AuthDecision.acceptedFromStore ∧
            hash (extractAPIKey p.2.req) = h)) →
       lookupKey (runAuth hash st l).2.apiKeys h = false) ∧
    (∀ (hash : String → String) (store : KeyStore) (st : AuthState)
       (now : Nat) (req : Request),
       lookupKey st.apiKeys (hash (extractAPIKey req)) = false →
       (authMiddleware hash store st now req).1 ≠
         AuthDecision.acceptedFromCache) := by
  have hstep : ∀ (hash : String → String) (store : KeyStore)
      (st : AuthState) (now : Nat) (req : Request) (h : String),
      ¬((authMiddleware hash store st now req).1 =
          AuthDecision.acceptedFromStore ∧
        hash (extractAPIKey req) = h) →
      lookupKey (authMiddleware hash store st now req).2.apiKeys h =
        lookupKey st.apiKeys h := by
    intro hash store st now req h hno
    rcases authMiddleware_apiKeys_cases hash store st now req with hsame | ⟨hacc, hset⟩
    · rw [hsame]
    · rw [hset]
      have hne : h ≠ hash (extractAPIKey req) := by
        intro he
        exact hno ⟨hacc, he.symm⟩
      exact lookup_setKey_ne _ _ _ _ hne
  refine ⟨?_, ?_, ?_, ?_⟩
  · intro hash store st now req hd
    rcases authMiddleware_apiKeys_cases hash store st now req with hsame | ⟨hacc, _⟩
    · exact hsame
    · rcases hd with hd | hd | hd <;> rw [hacc] at hd <;> exact absurd hd (by decide)
  · intro hash store st now req h hl
    rcases authMiddleware_apiKeys_cases hash store st now req with hsame | ⟨hacc, hset⟩
    · left
      rw [hsame] at hl
      exact hl
    · rw [hset] at hl
      by_cases he : h = hash (extractAPIKey req)
      · right
        refine ⟨hacc, he, ?_⟩
        rw [he]
        exact authMiddleware_accepted_store hash store st now req hacc
      · left
        rw [lookup_setKey_ne _ _ _ _ he] at hl
        exact hl
  · intro hash st h l
    induction l generalizing st with
    | nil =>
      intro hmiss _
      exact hmiss
    | cons s t ih =>
      intro hmiss hno
      have hhead := hno ((authMiddleware hash s.store st s.now s.req).1, s)
        (List.mem_cons_self _ _)
      have hafter :
          lookupKey (authMiddleware hash s.store st s.now s.req).2.apiKeys h
            = false := by
        rw [hstep hash s.store st s.now s.req h hhead]
        exact hmiss
      exact ih _ hafter (fun p hp => hno p (List.mem_cons_of_mem _ hp))
  · intro hash store st now req hmiss hd
    simp only [authMiddleware] at hd
    split at hd
    · simp at hd
    next h0 =>
      by_cases hc : (isValidCachedKey st now (hash (extractAPIKey req))).1 = true
      · have : lookupKey st.apiKeys (hash (extractAPIKey req)) = true := by
          unfold isValidCachedKey at hc
          by_cases hs : staleWindow < now - st.lastSync
          · simpa [hs] using hc
          · simpa [hs] using hc
        rw [hmiss] at this
        exact absurd this (by decide)
      · rw [if_neg hc] at hd
        split at hd
        · simp at hd
        next k heq =>
          split at hd
          · simp at hd
          · split at hd
            next e heq2 =>
              split at hd
              · simp at hd
              · simp at hd
            next heq2 => simp at hd

/-- Witness for C3 at concrete data: a request whose configured record is
expired is rejected as expired and leaves the cache map unchanged; running
that same request repeatedly never lets it be served from the cache. -/
theorem auth_cache_only_confirmed_valid_witness :
    (authMiddleware (fun s => s)
      [{ keyHash := "k1", name := "n", isActive := true, expiresAt := some 10 }]
      { apiKeys := [], lastSync := 100 } 100
      { authorization := "", xAPIKey := "k1" }).2.apiKeys = [] ∧
    lookupKey
      (runAuth (fun s => s)
        { apiKeys := [], lastSync := 100 }
        [{ store :=
            [{ keyHash := "k1", name := "n", isActive := true,
               expiresAt := some 10 }],
           now := 100, req := { authorization := "", xAPIKey := "k1" } },
         { store :=
            [{ keyHash := "k1", name := "n", isActive := true,
               expiresAt := some 10 }],
           now := 101, req := { authorization := "", xAPIKey := "k1" } }]).2.apiKeys
      "k1" = false := by
  constructor
  · exact auth_cache_only_confirmed_valid.1 (fun s => s) _ _ 100 _
      (Or.inr (Or.inr (by decide)))
  · exact auth_cache_only_confirmed_valid.2.2.1 (fun s => s) _ "k1" _ (by decide)
      (by decide)

/-- A successful lookup is stable under appending more records. -/
theorem getAPIKey_append_some (s1 s2 : KeyStore) (h : String)
    (k : APIKeyRec) (hk : getAPIKey s1 h = some k) :
    getAPIKey (s1 ++ s2) h = some k := by
  induction s1 with
  | nil => exact absurd hk (by simp [getAPIKey])
  | cons r t ih =>
    by_cases hr : (r.keyHash = h && r.isActive) = true
    · simp only [getAPIKey, List.find?, hr] at hk ⊢
      simpa using hk
    · simp only [getAPIKey, List.find?] at hk ih ⊢
      rw [Bool.not_eq_true] at hr
      rw [hr] at hk ⊢
      exact ih hk

/-- An active member record makes the lookup succeed. -/
theorem getAPIKey_isSome_of_mem (store : KeyStore) (r : APIKeyRec)
    (h : String) (hm : r ∈ store) (hh : r.keyHash = h)
    (ha : r.isActive = true) : (getAPIKey store h).isSome = true := by
  induction store with
  | nil => cases hm
  | cons r0 t ih =>
    by_cases hr : (r0.keyHash = h && r0.isActive) = true
    · simp [getAPIKey, List.find?, hr]
    · simp only [getAPIKey, List.find?]
      rw [Bool.not_eq_true] at hr
      rw [hr]
      rcases List.mem_cons.mp hm with he | hm2
      · rw [← he, hh, ha] at hr
        simp at hr
      · exact ih hm2

/-- A failing lookup means no active record with the hash is present. -/
theorem getAPIKey_none_no_active (store : KeyStore) (h : String)
    (hn : getAPIKey store h = none) :
    ∀ r ∈ store, ¬(r.keyHash = h ∧ r.isActive = true) := by
  intro r hm hcon
  have := getAPIKey_isSome_of_mem store r h hm hcon.1 hcon.2
  rw [hn] at this
  exact absurd this (by decide)

/-- A cached `true` entry survives any further `true` write. -/
theorem lookup_setKey_true_mono (m : List (String × Bool)) (h0 h : String)
    (ht : lookupKey m h = true) :
    lookupKey (setKey m h0 true) h = true := by
  by_cases he : h = h0
  · rw [he]
    exact lookup_setKey_self m h0 true
  · rw [lookup_setKey_ne m h0 h true he]
    exact ht

/-- One bootstrap pass over stores whose records for configured hashes are
all active: it succeeds, appends only fresh active records for hashes that
had no record, ends with every configured hash both present in the store
and marked valid in the cache, and only grows the cache. -/
theorem initializeAPIKeys_run (hash : String → String) (now : Nat) :
    ∀ (keys : List String) (store : KeyStore) (st : AuthState),
    (∀ k ∈ keys, ∀ r ∈ store, r.keyHash = hash k → r.isActive = true) →
    ∃ new st1,
      initializeAPIKeys hash now store st keys =
        Except.ok (store ++ new, st1) ∧
      (∀ r ∈ new, r.isActive = true ∧ ∀ r0 ∈ store, r0.keyHash ≠ r.keyHash) ∧
      (∀ k ∈ keys, (getAPIKey (store ++ new) (hash k)).isSome = true) ∧
      (∀ h, lookupKey st.apiKeys h = true → lookupKey st1.apiKeys h = true) ∧
      (∀ k ∈ keys, lookupKey st1.apiKeys (hash k) = true) := by
  intro keys
  induction keys with
  | nil =>
    intro store st _
    refine ⟨[], { st with lastSync := now }, ?_, ?_, ?_, ?_, ?_⟩
    · simp [initializeAPIKeys]
    · intro r hr
      cases hr
    · intro k hk
      cases hk
    · intro h ht
      exact ht
    · intro k hk
      cases hk
  | cons k t ih =>
    intro store st hact
    have hk := hact k (List.mem_cons_self _ _)
    have ht : ∀ k2 ∈ t, ∀ r ∈ store, r.keyHash = hash k2 → r.isActive = true :=
      fun k2 hk2 => hact k2 (List.mem_cons_of_mem _ hk2)
    rcases heq : getAPIKey store (hash k) with _ | k0
    · -- no active record: by hact there is no record at all, insert succeeds
      have hnone : (store.any fun r0 =>
          r0.keyHash = (bootstrapRec (hash k) now).keyHash) = false := by
        rw [Bool.eq_false_iff]
        intro hany
        rcases List.any_eq_true.mp hany with ⟨r0, hm0, hh0⟩
        have hh0p : r0.keyHash = hash k := by simpa [bootstrapRec] using hh0
        exact getAPIKey_none_no_active store (hash k) heq r0 hm0
          ⟨hh0p, hk r0 hm0 hh0p⟩
      have hact2 : ∀ k2 ∈ t,
          ∀ r ∈ store ++ [bootstrapRec (hash k) now],
          r.keyHash = hash k2 → r.isActive = true := by
        intro k2 hk2 r hr hh
        rcases List.mem_append.mp hr with hr | hr
        · exact ht k2 hk2 r hr hh
        · rcases List.mem_singleton.mp hr with rfl
          rfl
      rcases ih (store ++ [bootstrapRec (hash k) now])
        { st with apiKeys := setKey st.apiKeys (hash k) true } hact2 with
        ⟨new2, st1, hrun, hnew2, hsome, hmono, hcache⟩
      have hins : insertAPIKey store (bootstrapRec (hash k) now) =
          Except.ok (store ++ [bootstrapRec (hash k) now]) := by
        unfold insertAPIKey
        rw [if_neg (by simp [hnone])]
      refine ⟨bootstrapRec (hash k) now :: new2, st1, ?_, ?_, ?_, ?_, ?_⟩
      · show initializeAPIKeys hash now store st (k :: t) = _
        simp only [initializeAPIKeys, heq, hins]
        rw [hrun, List.append_assoc]
        rfl
      · intro r hr
        rcases List.mem_cons.mp hr with rfl | hr
        · refine ⟨rfl, ?_⟩
          intro r0 hr0 hcon
          exact getAPIKey_none_no_active store (hash k) heq r0 hr0
            ⟨hcon, hk r0 hr0 hcon⟩
        · have := hnew2 r hr
          exact ⟨this.1, fun r0 hr0 =>
            this.2 r0 (List.mem_append.mpr (Or.inl hr0))⟩
      · intro k2 hk2
        rw [show store ++ bootstrapRec (hash k) now :: new2 =
            (store ++ [bootstrapRec (hash k) now]) ++ new2 by
          rw [List.append_assoc]; rfl]
        rcases List.mem_cons.mp hk2 with rfl | hk2
        · exact getAPIKey_isSome_of_mem _ (bootstrapRec (hash k2) now) _
            (List.mem_append.mpr
              (Or.inl (List.mem_append.mpr (Or.inr (List.mem_singleton.mpr rfl)))))
            rfl rfl
        · exact hsome k2 hk2
      · intro h ht2
        exact hmono h (lookup_setKey_true_mono _ _ _ ht2)
      · intro k2 hk2
        rcases List.mem_cons.mp hk2 with rfl | hk2
        · exact hmono (hash k2) (lookup_setKey_self _ _ _)
        · exact hcache k2 hk2
    · -- a record exists and is found: no insert, just a cache mark
      rcases ih store
        { st with apiKeys := setKey st.apiKeys (hash k) true } ht with
        ⟨new2, st1, hrun, hnew2, hsome, hmono, hcache⟩
      refine ⟨new2, st1, ?_, hnew2, ?_, ?_, ?_⟩
      · show initializeAPIKeys hash now store st (k :: t) = _
        simp only [initializeAPIKeys, heq]
        exact hrun
      · intro k2 hk2
        rcases List.mem_cons.mp hk2 with rfl | hk2
        · rw [Option.isSome_iff_exists]
          exact ⟨k0, getAPIKey_append_some store new2 (hash k2) k0 heq⟩
        · exact hsome k2 hk2
      · intro h ht2
        exact hmono h (lookup_setKey_true_mono _ _ _ ht2)
      · intro k2 hk2
        rcases List.mem_cons.mp hk2 with rfl | hk2
        · exact hmono (hash k2) (lookup_setKey_self _ _ _)
        · exact hcache k2 hk2

/-- Re-running bootstrap when every configured hash already has a record:
no insert happens, the store is returned unchanged, and every configured
hash is (re)marked valid. -/
theorem initializeAPIKeys_rerun (hash : String → String) (now2 : Nat) :
    ∀ (keys : List String) (store : KeyStore) (st : AuthState),
    (∀ k ∈ keys, (getAPIKey store (hash k)).isSome = true) →
    ∃ st2, initializeAPIKeys hash now2 store st keys =
        Except.ok (store, st2) ∧
      (∀ h, lookupKey st.apiKeys h = true → lookupKey st2.apiKeys h = true) ∧
      (∀ k ∈ keys, lookupKey st2.apiKeys (hash k) = true) := by
  intro keys
  induction keys with
  | nil =>
    intro store st _
    refine ⟨{ st with lastSync := now2 }, by simp [initializeAPIKeys], ?_, ?_⟩
    · intro h ht
      exact ht
    · intro k hk
      cases hk
  | cons k t ih =>
    intro store st hsome
    have hk := hsome k (List.mem_cons_self _ _)
    rcases Option.isSome_iff_exists.mp hk with ⟨k0, heq⟩
    rcases ih store { st with apiKeys := setKey st.apiKeys (hash k) true }
      (fun k2 hk2 => hsome k2 (List.mem_cons_of_mem _ hk2)) with
      ⟨st2, hrun, hmono, hcache⟩
    refine ⟨st2, ?_, ?_, ?_⟩
    · show initializeAPIKeys hash now2 store st (k :: t) = _
      simp only [initializeAPIKeys, heq]
      exact hrun
    · intro h ht2
      exact hmono h (lookup_setKey_true_mono _ _ _ ht2)
    · intro k2 hk2
      rcases List.mem_cons.mp hk2 with rfl | hk2
      · exact hmono (hash k2) (lookup_setKey_self _ _ _)
      · exact hcache k2 hk2

/-- C4 counterexample: with an existing but inactive record for a
configured key's hash, bootstrap errors — `GetAPIKey` filters on
`is_active = true`, misses the record, and the subsequent insert violates
the `key_hash` UNIQUE constraint.  The claim's "never returns an error"
over every such store state is therefore false. -/
theorem initialize_api_keys_counterexample :
    initializeAPIKeys (fun s => s) 0
      [{ keyHash := "k1", name := "old", isActive := false,
         expiresAt := none }]
      { apiKeys := [], lastSync := 0 } ["k1"] = Except.error () := by
  rfl

/-- C4 (amended): bootstrap inserts a record only when no *active* record
with the hash exists; on every store whose pre-existing records for the
configured hashes are all active — in particular after any previous
successful run — it succeeds, marks each configured hash valid in the
cache, appends only records whose hash had no record at all, and re-running
it leaves the store unchanged, creates no duplicates, and errors never. -/
theorem initialize_api_keys_idempotent (hash : String → String)
    (keys : List String) (store : KeyStore) (st : AuthState) (now now2 : Nat)
    (hact : ∀ k ∈ keys, ∀ r ∈ store, r.keyHash = hash k → r.isActive = true) :
    ∃ new st1 st2,
      initializeAPIKeys hash now store st keys =
        Except.ok (store ++ new, st1) ∧
      (∀ k ∈ keys, lookupKey st1.apiKeys (hash k) = true) ∧
      (∀ r ∈ new, r.isActive = true ∧ ∀ r0 ∈ store, r0.keyHash ≠ r.keyHash) ∧
      initializeAPIKeys hash now2 (store ++ new) st1 keys =
        Except.ok (store ++ new, st2) ∧
      (∀ k ∈ keys, lookupKey st2.apiKeys (hash k) = true) := by
  rcases initializeAPIKeys_run hash now keys store st hact with
    ⟨new, st1, hrun, hnew, hsome, _, hcache⟩
  rcases initializeAPIKeys_rerun hash now2 keys (store ++ new) st1 hsome with
    ⟨st2, hrun2, _, hcache2⟩
  exact ⟨new, st1, st2, hrun, hcache, hnew, hrun2, hcache2⟩

/-- Witness for C4 (amended) at concrete data: one configured key over an
empty store. -/
theorem initialize_api_keys_idempotent_witness :
    (∀ k ∈ ["k1"], ∀ r ∈ ([] : KeyStore),
       r.keyHash = (fun s => s) k → r.isActive = true) ∧
    ∃ new st1 st2,
      initializeAPIKeys (fun s => s) 1 [] { apiKeys := [], lastSync := 0 }
          ["k1"] = Except.ok ([] ++ new, st1) ∧
      (∀ k ∈ ["k1"], lookupKey st1.apiKeys ((fun s => s) k) = true) ∧
      (∀ r ∈ new, r.isActive = true ∧
         ∀ r0 ∈ ([] : KeyStore), r0.keyHash ≠ r.keyHash) ∧
      initializeAPIKeys (fun s => s) 2 ([] ++ new) st1 ["k1"] =
        Except.ok ([] ++ new, st2) ∧
      (∀ k ∈ ["k1"], lookupKey st2.apiKeys ((fun s => s) k) = true) := by
  refine ⟨by simp, ?_⟩
  exact initialize_api_keys_idempotent (fun s => s) ["k1"] []
    { apiKeys := [], lastSync := 0 } 1 2 (by simp)

/-- C6: a decoded batch that is empty is rejected with `empty_batch`, and
one with more than 1000 logs is rejected with `batch_too_large`; both
rejections happen before any store insert, so the store is returned
unchanged. -/
theorem batch_size_guard (store : LogStore) (logs : List AnalyticsLog)
    (now : Nat) :
    (logs.length = 0 →
      ingestBatch store logs now =
        (BatchOutcome.rejected "empty_batch" [], store)) ∧
    (logs.length > maxBatchSize →
      ingestBatch store logs now =
        (BatchOutcome.rejected "batch_too_large" [], store)) := by
  constructor
  · intro h
    unfold ingestBatch
    rw [if_pos h]
  · intro h
    have h0 : ¬ logs.length = 0 := by omega
    unfold ingestBatch
    rw [if_neg h0, if_pos h]

/-- Witness for C6: the empty batch and a batch of 1001 logs, over an
empty store. -/
theorem batch_size_guard_witness :
    ingestBatch [] [] 9 = (BatchOutcome.rejected "empty_batch" [], []) ∧
    ingestBatch [] (List.replicate 1001 sampleLog) 9 =
      (BatchOutcome.rejected "batch_too_large" [], []) := by
  refine ⟨(batch_size_guard [] [] 9).1 rfl,
    (batch_size_guard [] (List.replicate 1001 sampleLog) 9).2 ?_⟩
  rw [List.length_replicate]
  decide

/-- Every tagged error of the `i`-th log lands in the batch's collected
error list. -/
theorem validateBatch_mem_of_mem (now : Nat) :
    ∀ (logs : List AnalyticsLog) (j i : Nat) (hi : i < logs.length)
      (ve : ValidationError),
      ve ∈ validateLog (setDefaultValues now (logs.get ⟨i, hi⟩)) →
      tagIndexed (j + i) ve ∈ (validateBatch now j logs).1 := by
  intro logs
  induction logs with
  | nil =>
    intro j i hi
    exact absurd hi (Nat.not_lt_zero i)
  | cons l t ih =>
    intro j i hi ve hve
    cases i with
    | zero =>
      have hmem : tagIndexed j ve ∈
          (validateLog (setDefaultValues now l)).map (tagIndexed j) :=
        List.mem_map_of_mem _ hve
      have hpos : 0 < (validateLog (setDefaultValues now l)).length :=
        List.length_pos.mpr (List.ne_nil_of_mem hve)
      simp only [validateBatch]
      rw [if_pos hpos, Nat.add_zero]
      exact List.mem_append_left _ hmem
    | succ i2 =>
      have hi2 : i2 < t.length := Nat.lt_of_succ_lt_succ hi
      have htail := ih (j + 1) i2 hi2 ve hve
      have harith : (j + 1) + i2 = j + (i2 + 1) := by omega
      rw [harith] at htail
      simp only [validateBatch]
      by_cases hpos : 0 < (validateLog (setDefaultValues now l)).length
      · rw [if_pos hpos]
        exact List.mem_append_right _ htail
      · rw [if_neg hpos]
        exact htail

/-- Any rejection leaves the store unchanged (otherwise the outcome was a
creation). -/
theorem ingestBatch_store_cases (store : LogStore) (logs : List AnalyticsLog)
    (now : Nat) :
    (ingestBatch store logs now).2 = store ∨
    ∃ n, (ingestBatch store logs now).1 = BatchOutcome.created n := by
  simp only [ingestBatch]
  split
  · left; rfl
  · split
    · left; rfl
    · split
      · left; rfl
      · split
        · right; exact ⟨_, rfl⟩
        · left; rfl

/-- C7: batch ingestion is all-or-nothing and error reporting is complete —
every rejection (of any kind) leaves the store exactly as it was; when any
log fails validation, every offending field of every log, tagged with its
index, appears in the reported list and the outcome is a
`validation_error` rejection carrying that full list; and when validation
passes but the transactional insert fails (e.g. on a duplicate `event_id`
inside the batch), the outcome is a `database_error` rejection with the
store unchanged — zero rows of the batch persist. -/
theorem batch_atomicity_and_full_errors (store : LogStore)
    (logs : List AnalyticsLog) (now : Nat) :
    (∀ code d, (ingestBatch store logs now).1 = BatchOutcome.rejected code d →
       (ingestBatch store logs now).2 = store) ∧
    (∀ i (hi : i < logs.length) (ve : ValidationError),
       ¬ logs.length = 0 → ¬ logs.length > maxBatchSize →
       ve ∈ validateLog (setDefaultValues now (logs.get ⟨i, hi⟩)) →
       tagIndexed i ve ∈ (validateBatch now 0 logs).1 ∧
       (ingestBatch store logs now).1 =
         BatchOutcome.rejected "validation_error" (validateBatch now 0 logs).1) ∧
    (∀ e, ¬ logs.length = 0 → ¬ logs.length > maxBatchSize →
       (validateBatch now 0 logs).1 = [] →
       insertLogsBatch store (validateBatch now 0 logs).2 = Except.error e →
       ingestBatch store logs now =
         (BatchOutcome.rejected "database_error" [], store)) := by
  refine ⟨?_, ?_, ?_⟩
  · intro code d hrej
    rcases ingestBatch_store_cases store logs now with hs | ⟨n, hn⟩
    · exact hs
    · rw [hrej] at hn
      exact absurd hn (by simp)
  · intro i hi ve h0 h1 hve
    have hmem := validateBatch_mem_of_mem now logs 0 i hi ve hve
    rw [Nat.zero_add] at hmem
    have hpos : 0 < (validateBatch now 0 logs).1.length :=
      List.length_pos.mpr (List.ne_nil_of_mem hmem)
    refine ⟨hmem, ?_⟩
    simp only [ingestBatch]
    rw [if_neg h0, if_neg h1, if_pos hpos]
  · intro e h0 h1 hv hins
    have hnpos : ¬ 0 < (validateBatch now 0 logs).1.length := by
      rw [hv]
      simp
    simp only [ingestBatch]
    rw [if_neg h0, if_neg h1, if_neg hnpos, hins]

/-- Witness for C7: a batch whose single log misses `event_id` is rejected
with its tagged error in the list and no store change; a batch of two logs
sharing one `event_id` passes validation but fails the transactional
insert, is rejected as `database_error`, and persists nothing. -/
theorem batch_atomicity_and_full_errors_witness :
    tagIndexed 0 { field := "EventID", message := requiredMsg } ∈
      (validateBatch 9 0 [badLog]).1 ∧
    (ingestBatch [] [badLog] 9).1 =
      BatchOutcome.rejected "validation_error" (validateBatch 9 0 [badLog]).1 ∧
    ingestBatch [] [sampleLog, sampleLog] 9 =
      (BatchOutcome.rejected "database_error" [], []) := by
  have hb := (batch_atomicity_and_full_errors [] [badLog] 9).2.1 0
    (by decide) { field := "EventID", message := requiredMsg }
    (by decide) (by decide) (by decide)
  have hc := (batch_atomicity_and_full_errors [] [sampleLog, sampleLog] 9).2.2
    () (by decide) (by decide) (by decide) rfl
  exact ⟨hb.1, hb.2, hc⟩

end LogServer

